import Mathlib

/-!
# Verification of the layer-3 service-isolation core (dylarcher/aio)

Shallow embedding of the fault-containment layer of
`src/experiments/five-layer-architecture/layer-3-service-isolation/`:

* the `CircuitBreaker` class of the layer-3 README (state machine with
  exponential backoff and jitter),
* the `retryWithBackoff` loop of `ResilientServiceClient` (same file),
* the `ResourcePool` bulkhead of `resource-pool.js`.

JavaScript numbers are modelled as rationals (`ℚ`); counters that the code
increments and decrements without a lower bound are integers (`ℤ`), so that
the embedding can exhibit the negative values the source actually produces.
Asynchronous methods are decomposed into their synchronous state mutations:
each `def` below names the source method (or the phase of it) it embeds, and
interleavings of concurrent calls are sequences of these atomic phases.
-/

/-- The three states of the breaker: `"CLOSED" | "OPEN" | "HALF_OPEN"`. -/
inductive CBState where
  | Closed
  | Open
  | HalfOpen
deriving DecidableEq, Repr

/-- State of one `CircuitBreaker` instance (README lines 12–22).
`timeout` is the configured base timeout (`this.timeout`), `nextAttempt`
is initialised to `Date.now()` at construction. -/
structure CircuitBreaker where
  failureThreshold : ℕ
  timeout : ℚ
  state : CBState
  failureCount : ℕ
  lastFailureTime : Option ℚ
  nextAttempt : ℚ
deriving DecidableEq, Repr

/-- `new CircuitBreaker({failureThreshold, timeout})` at time `now`:
`state = "CLOSED"`, `failureCount = 0`, `lastFailureTime = null`,
`nextAttempt = Date.now()`. -/
def CircuitBreaker.mk0 (failureThreshold : ℕ) (timeout : ℚ) (now : ℚ) :
    CircuitBreaker :=
  { failureThreshold := failureThreshold
    timeout := timeout
    state := CBState.Closed
    failureCount := 0
    lastFailureTime := none
    nextAttempt := now }

/-- `getBackoffDelay()` (README lines 63–72):
`baseDelay * 2^min(failureCount - failureThreshold, 6) + jitter` with
`jitter = Math.random() * 0.1 * exponentialDelay`.  The `Math.random()`
draw is the injected `rand ∈ [0,1)`. -/
def CircuitBreaker.getBackoffDelay (cb : CircuitBreaker) (rand : ℚ) : ℚ :=
  let baseDelay := cb.timeout
  let exponentialDelay :=
    baseDelay * (2 : ℚ) ^ (min ((cb.failureCount : ℤ) - (cb.failureThreshold : ℤ)) 6)
  let jitter := rand * (1 / 10) * exponentialDelay
  exponentialDelay + jitter

/-- `onSuccess()` (README lines 42–46): reset the count, close the gate. -/
def CircuitBreaker.onSuccess (cb : CircuitBreaker) : CircuitBreaker :=
  { cb with failureCount := 0, state := CBState.Closed }

/-- `onFailure()` (README lines 48–61): increment the count, record the
failure time, and when the (incremented) count reaches the threshold open
the gate with `nextAttempt = Date.now() + this.getBackoffDelay()`.
`getBackoffDelay` reads the already-incremented `failureCount`. -/
def CircuitBreaker.onFailure (cb : CircuitBreaker) (now : ℚ) (rand : ℚ) :
    CircuitBreaker :=
  let cb1 := { cb with failureCount := cb.failureCount + 1,
                       lastFailureTime := some now }
  if cb1.failureThreshold ≤ cb1.failureCount then
    { cb1 with state := CBState.Open,
               nextAttempt := now + cb1.getBackoffDelay rand }
  else
    cb1

/-- The gate check at the top of `execute` (README lines 25–30), i.e. the
part of `execute` that runs before the wrapped operation is awaited.
Returns the updated breaker and whether the call was admitted (`true`) or
rejected with `CircuitOpenError` (`false`).  While `state == "OPEN"` and
`Date.now() < nextAttempt` the call is rejected; an `"OPEN"` call at or
after `nextAttempt` flips the state to `"HALF_OPEN"` and proceeds; any
other state proceeds unconditionally. -/
def CircuitBreaker.admitPhase (cb : CircuitBreaker) (now : ℚ) :
    CircuitBreaker × Bool :=
  if cb.state = CBState.Open then
    if now < cb.nextAttempt then (cb, false)
    else ({ cb with state := CBState.HalfOpen }, true)
  else (cb, true)

/-- Outcome of one `execute(operation)` call. -/
inductive ExecOutcome where
  | rejected
  | succeeded
  | failed
deriving DecidableEq, Repr

/-- A whole `execute(operation)` call (README lines 24–40) in which the
wrapped operation, when invoked, completes with `opFails` before any other
call touches the breaker: the gate check, then `onSuccess`/`onFailure`
bookkeeping.  `rejected` means `operation` was never invoked. -/
def CircuitBreaker.execute (cb : CircuitBreaker) (now : ℚ) (opFails : Bool)
    (rand : ℚ) : CircuitBreaker × ExecOutcome :=
  let ar := cb.admitPhase now
  if ar.2 then
    if opFails then (ar.1.onFailure now rand, ExecOutcome.failed)
    else (ar.1.onSuccess, ExecOutcome.succeeded)
  else (ar.1, ExecOutcome.rejected)

/-- Input of one sequential `execute` call: the call's timestamp, whether
the wrapped operation fails, and the `Math.random()` draw used if the
failure opens the gate. -/
structure ExecInput where
  now : ℚ
  opFails : Bool
  rand : ℚ
deriving DecidableEq, Repr

/-- One sequential `execute` call folded over an accumulator of breaker
state and operation-invocation count: rejected calls leave the count
unchanged, admitted calls (whether the operation succeeds or fails)
increment it. -/
def CircuitBreaker.callStep (acc : CircuitBreaker × ℕ) (i : ExecInput) :
    CircuitBreaker × ℕ :=
  let r := acc.1.execute i.now i.opFails i.rand
  (r.1, acc.2 + (if r.2 = ExecOutcome.rejected then 0 else 1))

/-- Run a sequence of complete `execute` calls, counting how many times the
wrapped operation was actually invoked (i.e. how many calls were not
rejected at the gate). -/
def CircuitBreaker.runCalls (cb : CircuitBreaker) (l : List ExecInput) :
    CircuitBreaker × ℕ :=
  l.foldl CircuitBreaker.callStep (cb, 0)

/-! ## RetryExecutor: `ResilientServiceClient.retryWithBackoff` -/

/-- Result of one `retryWithBackoff(operation)` run: the final outcome, the
number of times `operation` was invoked, and the list of delays that were
slept between attempts, in order. -/
structure RetryResult (E A : Type) where
  result : Except E A
  attempts : ℕ
  delays : List ℚ

/-- The body of the `for (let attempt = 0; attempt <= maxRetries; ...)` loop
of `retryWithBackoff` (README lines 117–139), starting at index `attempt`
with `fuel = maxRetries - attempt` iterations still allowed after this one.
Each iteration invokes `op attempt`; on failure with `attempt == maxRetries`
the loop breaks and the last error is thrown; otherwise the executor sleeps
`initialDelay * multiplier^attempt` and continues with `attempt + 1`. -/
def retryFrom {E A : Type} (op : ℕ → Except E A) (initialDelay mult : ℚ)
    (attempt : ℕ) : ℕ → RetryResult E A
  | 0 =>
    match op attempt with
    | Except.ok a => ⟨Except.ok a, 1, []⟩
    | Except.error e => ⟨Except.error e, 1, []⟩
  | fuel + 1 =>
    match op attempt with
    | Except.ok a => ⟨Except.ok a, 1, []⟩
    | Except.error _ =>
      let r := retryFrom op initialDelay mult (attempt + 1) fuel
      ⟨r.result, r.attempts + 1, initialDelay * mult ^ attempt :: r.delays⟩

/-- `retryWithBackoff(operation)` with retry options
`{maxRetries, initialDelay, backoffMultiplier}`: run the loop from
`attempt = 0`.  `op n` is the outcome of the `n`-th invocation of the
wrapped operation (0-indexed). -/
def retryWithBackoff {E A : Type} (op : ℕ → Except E A) (maxRetries : ℕ)
    (initialDelay mult : ℚ) : RetryResult E A :=
  retryFrom op initialDelay mult 0 maxRetries

/-! ## BulkheadPool: `ResourcePool` of `resource-pool.js` -/

/-- Per-pool metrics (`resource-pool.js` lines 20–25). -/
structure PoolMetrics where
  totalRequests : ℤ
  successfulRequests : ℤ
  failedRequests : ℤ
  averageWaitTime : ℚ
deriving DecidableEq, Repr

/-- Identity of a JavaScript function value involved in the wait queue of
waiter `w`: `wrapper w` is the closure
`() => { clearTimeout(timeoutId); pool.available--; pool.active++;
resolve(); }` that `waitForResource` pushes onto `pool.waiting`
(`resource-pool.js` lines 74–79), and `resolveFn w` is the bare promise
`resolve` of the same waiter — a distinct function object, which is what
the timeout callback passes to `pool.waiting.indexOf` (line 67). -/
inductive JsFun where
  | wrapper (w : ℕ)
  | resolveFn (w : ℕ)
deriving DecidableEq, Repr

/-- One named pool (`resource-pool.js` lines 14–26).  `available` and
`active` are plain JavaScript numbers that the code increments and
decrements with no bounds check, so they are modelled as `ℤ`.  `waiting`
is the FIFO queue of pending waiters; its elements are the function
values the code actually stores there. -/
structure Pool where
  name : String
  size : ℤ
  available : ℤ
  active : ℤ
  waiting : List JsFun
  metrics : PoolMetrics
deriving DecidableEq, Repr

/-- The pool object `createPool` builds for a given name and size
(`resource-pool.js` lines 14–26). -/
def Pool.mk0 (name : String) (size : ℤ) : Pool :=
  { name := name
    size := size
    available := size
    active := 0
    waiting := []
    metrics := ⟨0, 0, 0, 0⟩ }

/-- JavaScript `x || d` for an optional numeric option: `0` (and absence)
falls through to the default. -/
def jsOrDefault (x : Option ℤ) (d : ℤ) : ℤ :=
  match x with
  | none => d
  | some v => if v = 0 then d else v

/-- The `ResourcePool` registry object (`resource-pool.js` lines 3–7):
a map of pools plus the configured default and maximum sizes. -/
structure ResourcePool where
  pools : List (String × Pool)
  defaultPoolSize : ℤ
  maxPoolSize : ℤ
deriving DecidableEq, Repr

/-- `new ResourcePool(options)`: `defaultPoolSize = options.defaultPoolSize
|| 10`, `maxPoolSize = options.maxPoolSize || 50`, empty pool map. -/
def ResourcePool.mk0 (defaultPoolSize? maxPoolSize? : Option ℤ) :
    ResourcePool :=
  { pools := []
    defaultPoolSize := jsOrDefault defaultPoolSize? 10
    maxPoolSize := jsOrDefault maxPoolSize? 50 }

/-- `createPool(name, size = this.defaultPoolSize)` (`resource-pool.js`
lines 9–30): throws `Pool ${name} already exists` when the name is taken,
otherwise registers and returns a fresh pool of exactly the requested
size (the default applies only when the argument is omitted). -/
def ResourcePool.createPool (rp : ResourcePool) (name : String)
    (size? : Option ℤ) : Except String (Pool × ResourcePool) :=
  if (rp.pools.lookup name).isSome then
    Except.error ("Pool " ++ name ++ " already exists")
  else
    let size := size?.getD rp.defaultPoolSize
    let pool := Pool.mk0 name size
    Except.ok (pool, { rp with pools := rp.pools ++ [(name, pool)] })

/-- The synchronous fast path of `waitForResource` (`resource-pool.js`
lines 58–63): when `available > 0` take a slot immediately (returns
`true`); otherwise push waiter `w`'s wrapper closure onto the back of
`pool.waiting` (lines 65–80) and report that the caller is suspended
(returns `false`). -/
def Pool.waitForResource (p : Pool) (w : ℕ) : Pool × Bool :=
  if 0 < p.available then
    ({ p with available := p.available - 1, active := p.active + 1 }, true)
  else
    ({ p with waiting := p.waiting ++ [JsFun.wrapper w] }, false)

/-- The timeout callback of `waitForResource` (`resource-pool.js` lines
66–72): `const index = pool.waiting.indexOf(resolve); if (index > -1)
pool.waiting.splice(index, 1)`, then reject with `PoolTimeoutError`.
The search value is waiter `w`'s bare `resolve`, while the queue holds
only wrapper closures; `List.indexOf` returns the length when the value
is absent, matching `indexOf` returning `-1` (no splice). -/
def Pool.timeoutWaiter (p : Pool) (w : ℕ) : Pool :=
  let index := p.waiting.indexOf (JsFun.resolveFn w)
  if index < p.waiting.length then
    { p with waiting := p.waiting.eraseIdx index }
  else p

/-- The closure a released slot hands to a queued waiter
(`resource-pool.js` lines 74–79): `pool.available--; pool.active++` and
resume the waiter.  Note it decrements `available` even though
`releaseResource` did not increment it on the handoff path. -/
def Pool.grantWaiter (p : Pool) : Pool :=
  { p with available := p.available - 1, active := p.active + 1 }

/-- `releaseResource(pool)` (`resource-pool.js` lines 83–92):
`pool.active--`; then either hand the slot to the earliest waiter
(running its closure, `grantWaiter`) or `pool.available++`. -/
def Pool.releaseResource (p : Pool) : Pool :=
  let p1 := { p with active := p.active - 1 }
  match p1.waiting with
  | [] => { p1 with available := p1.available + 1 }
  | _ :: rest => Pool.grantWaiter { p1 with waiting := rest }

/-- `updateAverageWaitTime(pool, waitTime)` (`resource-pool.js` lines
94–99): running average over `metrics.totalRequests`. -/
def Pool.updateAverageWaitTime (p : Pool) (waitTime : ℚ) : Pool :=
  { p with metrics :=
      { p.metrics with averageWaitTime :=
          (p.metrics.averageWaitTime * (p.metrics.totalRequests - 1) +
            waitTime) / p.metrics.totalRequests } }

/-- The `pool.metrics.totalRequests++` bookkeeping at the top of
`acquireResource` (`resource-pool.js` line 39). -/
def Pool.startRequest (p : Pool) : Pool :=
  { p with metrics := { p.metrics with
      totalRequests := p.metrics.totalRequests + 1 } }

/-- The stats record returned by `getPoolStats` (`resource-pool.js`
lines 105–113). -/
structure PoolStats where
  name : String
  size : ℤ
  available : ℤ
  active : ℤ
  waiting : ℕ
  utilization : ℚ
  metrics : PoolMetrics
deriving DecidableEq, Repr

/-- `getPoolStats(poolName)` (`resource-pool.js` lines 101–114): `null`
for an unregistered name, otherwise a read-only snapshot with
`utilization = (active / size) * 100`.  It mutates nothing: the registry
is only read. -/
def ResourcePool.getPoolStats (rp : ResourcePool) (poolName : String) :
    Option PoolStats :=
  match rp.pools.lookup poolName with
  | none => none
  | some pool =>
    some
      { name := pool.name
        size := pool.size
        available := pool.available
        active := pool.active
        waiting := pool.waiting.length
        utilization := ((pool.active : ℚ) / (pool.size : ℚ)) * 100
        metrics := pool.metrics }

/-! ## Test fixtures used by witnesses and counterexamples -/

/-- A breaker with `failureThreshold = 1`, `timeout = 1000`, created at
time 0, as in the spec's §8 scenario scaled down. -/
def cbFix : CircuitBreaker := CircuitBreaker.mk0 1 1000 0

/-- `cbFix` after one failing call at time 0 (`rand = 0`): the gate is
open with `nextAttempt = 1000`. -/
def cbOpenFix : CircuitBreaker := (cbFix.execute 0 true 0).1

/-- `cbOpenFix` after the probe call's gate check at time 1000: the probe
has been admitted and is still outstanding (`HALF_OPEN`). -/
def cbProbeFix : CircuitBreaker := (cbOpenFix.admitPhase 1000).1

/-- A breaker with `failureThreshold = 3`, `timeout = 1000` and
`failureCount = 5`, for evaluating `getBackoffDelay`. -/
def cbBackoffFix : CircuitBreaker :=
  { CircuitBreaker.mk0 3 1000 0 with failureCount := 5 }

/-- A capacity-1 pool. -/
def poolFix : Pool := Pool.mk0 "db" 1

/-- `poolFix` with caller A holding the single slot. -/
def poolHeldFix : Pool := (poolFix.waitForResource 0).1

/-- `poolHeldFix` with caller B queued as waiter 1. -/
def poolQueuedFix : Pool := (poolHeldFix.waitForResource 1).1

/-! ## Theorems -/

/-- The opened fixture, evaluated: one failure at time 0 trips the
threshold-1 breaker and schedules `nextAttemptAt = 0 + 1000 * 2^0 + 0`. -/
theorem cbOpenFix_eq :
    cbOpenFix = ⟨1, 1000, CBState.Open, 1, some 0, 1000⟩ := by
  simp [cbOpenFix, cbFix, CircuitBreaker.mk0, CircuitBreaker.execute,
    CircuitBreaker.admitPhase, CircuitBreaker.onFailure,
    CircuitBreaker.getBackoffDelay, CircuitBreaker.onSuccess]

/-- The probe fixture, evaluated: at time 1000 the gate check flips the
open breaker to `HALF_OPEN`. -/
theorem cbProbeFix_eq :
    cbProbeFix = ⟨1, 1000, CBState.HalfOpen, 1, some 0, 1000⟩ := by
  simp [cbProbeFix, cbOpenFix_eq, CircuitBreaker.admitPhase]

/-- C2 counterexample.  `failureThreshold = 1`, `timeout = 1000`: one
failure at time 0 opens the gate with `nextAttemptAt = 1000`; at time 1000
a probe is admitted (state becomes `HALF_OPEN`) and is still outstanding.
A second call's gate check at time 1000, while that probe is outstanding,
is ALSO admitted — `admitPhase` returns `true` and the wrapped operation is
invoked — refuting the claim that every other call is rejected with
`CircuitOpenError` while a probe is in flight. -/
theorem halfOpen_probe_not_single_flight_cex :
    cbProbeFix.state = CBState.HalfOpen ∧
    (cbOpenFix.admitPhase 1000).2 = true ∧
    (cbProbeFix.admitPhase 1000).2 = true ∧
    (cbProbeFix.admitPhase 1000).1 = cbProbeFix := by
  refine ⟨?_, ?_, ?_, ?_⟩ <;>
    simp [cbProbeFix_eq, cbOpenFix_eq, cbProbeFix, CircuitBreaker.admitPhase]

/-- C2, amended.  The code has no `probeInFlight` guard: whenever the
breaker is `HALF_OPEN` — in particular while an admitted probe is still
outstanding — every further `execute` call passes the gate unchanged and
invokes the wrapped operation; any number of concurrent calls can be in
flight during `HALF_OPEN`. -/
theorem halfOpen_admits_concurrent_calls (cb : CircuitBreaker) (now : ℚ)
    (h : cb.state = CBState.HalfOpen) :
    cb.admitPhase now = (cb, true) := by
  simp [CircuitBreaker.admitPhase, h]

/-- Witness for `halfOpen_admits_concurrent_calls` at the concrete
half-open breaker `cbProbeFix` and time 1000. -/
theorem halfOpen_admits_concurrent_calls_witness :
    cbProbeFix.admitPhase 1000 = (cbProbeFix, true) :=
  halfOpen_admits_concurrent_calls cbProbeFix 1000
    (by simp [cbProbeFix_eq])

/-- The timeout callback can never remove anything from the wait queue:
the queue only ever holds wrapper closures (that is all `waitForResource`
pushes), while `indexOf` is given the bare `resolve`, so the lookup
always misses and the splice never runs. -/
theorem timeoutWaiter_never_removes (p : Pool) (w : ℕ)
    (h : ∀ f ∈ p.waiting, ∃ v, f = JsFun.wrapper v) :
    p.timeoutWaiter w = p := by
  have hnm : JsFun.resolveFn w ∉ p.waiting := by
    intro hm
    obtain ⟨v, hv⟩ := h _ hm
    simp at hv
  have hlen : p.waiting.indexOf (JsFun.resolveFn w) = p.waiting.length :=
    List.indexOf_of_not_mem hnm
  simp [Pool.timeoutWaiter, hlen]

/-- C3: the code at the failing input.  Capacity-1 pool, caller A holds
the slot (`available = 0`, `active = 1`); caller B's acquisition times
out.  The timeout callback's `pool.waiting.indexOf(resolve)` searches for
B's bare `resolve` while the queue holds B's wrapper closure, so the
waiter is NOT removed: `waiting.length` stays 1, refuting "waitingCount
returns to 0 afterward".  B's `finally` then runs `releaseResource`,
which hands the "freed" slot to B's own stale closure: `available = -1`,
`active = 1` — not the untouched `available = 0`, `active = 1` the claim
requires.  When A later releases for real, the pool rests at
`available = 0`, `active = 0`: the slot is lost
(`available + active ≠ capacity`). -/
theorem pool_timeout_cleanup_failure :
    poolHeldFix.available = 0 ∧ poolHeldFix.active = 1 ∧
    poolQueuedFix.waiting.length = 1 ∧
    (poolQueuedFix.timeoutWaiter 1).waiting.length = 1 ∧
    ((poolQueuedFix.timeoutWaiter 1).releaseResource).available = -1 ∧
    ((poolQueuedFix.timeoutWaiter 1).releaseResource).active = 1 ∧
    ((poolQueuedFix.timeoutWaiter 1).releaseResource).waiting = [] ∧
    ((poolQueuedFix.timeoutWaiter 1).releaseResource).releaseResource.available
      = 0 ∧
    ((poolQueuedFix.timeoutWaiter 1).releaseResource).releaseResource.active
      = 0 ∧
    ((poolQueuedFix.timeoutWaiter 1).releaseResource).releaseResource.available +
        ((poolQueuedFix.timeoutWaiter 1).releaseResource).releaseResource.active ≠
      poolQueuedFix.size := by
  decide

/-- C4: the code at the failing input.  Capacity-1 pool: A acquires, B
queues, A releases.  The release-to-waiter handoff runs the waiter's
closure (`available--; active++`) after `active--` without ever
incrementing `available`, so `available = -1` — violating
`available >= 0` — and when B finishes the pool is at rest with
`available = 0`, `active = 0`, `waiting = []`: `available + active = 0 ≠
1 = capacity`.  The slot is lost permanently. -/
theorem pool_handoff_breaks_invariant :
    poolQueuedFix.releaseResource.available = -1 ∧
    poolQueuedFix.releaseResource.active = 1 ∧
    poolQueuedFix.releaseResource.releaseResource.available = 0 ∧
    poolQueuedFix.releaseResource.releaseResource.active = 0 ∧
    poolQueuedFix.releaseResource.releaseResource.waiting = [] ∧
    poolQueuedFix.releaseResource.releaseResource.available +
        poolQueuedFix.releaseResource.releaseResource.active ≠
      poolQueuedFix.releaseResource.releaseResource.size := by
  decide

/-- C9 counterexample.  On a default-configured `ResourcePool`
(`maxPoolSize = 50`), `createPool("big", 100)` succeeds and the resulting
pool has `size = 100 > 50`: the stored maximum is never enforced. -/
theorem createPool_ignores_max_cex :
    ((ResourcePool.mk0 none none).createPool "big" (some 100)).toOption.map
        (fun x => x.1.size) = some 100 ∧
    ¬ ((100 : ℤ) ≤ (ResourcePool.mk0 none none).maxPoolSize) := by
  decide

/-- C9, amended.  Pool capacity defaults to `defaultPoolSize` (10 on a
default-configured registry) when no size is given, and otherwise is
exactly the requested size: `createPool` applies no upper bound, so the
configured `maxPoolSize` of 50 is recorded but never enforced. -/
theorem createPool_default_and_passthrough (rp : ResourcePool)
    (name : String) (s : ℤ) (h : rp.pools.lookup name = none) :
    (rp.createPool name none).toOption.map (fun x => x.1.size) =
        some rp.defaultPoolSize ∧
    (rp.createPool name (some s)).toOption.map (fun x => x.1.size) =
        some s ∧
    (ResourcePool.mk0 none none).defaultPoolSize = 10 := by
  refine ⟨?_, ?_, rfl⟩ <;>
  · simp only [ResourcePool.createPool, h, Option.isSome_none,
      Bool.false_eq_true, if_false]
    rfl

/-- Witness for `createPool_default_and_passthrough` on an empty registry
with the name `"db"` and requested size 100. -/
theorem createPool_default_and_passthrough_witness :
    ((ResourcePool.mk0 none none).createPool "db" none).toOption.map
        (fun x => x.1.size) = some (ResourcePool.mk0 none none).defaultPoolSize ∧
    ((ResourcePool.mk0 none none).createPool "db" (some 100)).toOption.map
        (fun x => x.1.size) = some 100 ∧
    (ResourcePool.mk0 none none).defaultPoolSize = 10 :=
  createPool_default_and_passthrough (ResourcePool.mk0 none none) "db" 100
    (by decide)

/-- C10.  `getPoolStats` on an unregistered name returns `null` (it is a
pure read: the registry is not mutated and no error is thrown). -/
theorem getPoolStats_unregistered_returns_null (rp : ResourcePool)
    (poolName : String) (h : rp.pools.lookup poolName = none) :
    rp.getPoolStats poolName = none := by
  simp [ResourcePool.getPoolStats, h]

/-- Witness for `getPoolStats_unregistered_returns_null` on an empty
registry and the name `"missing"`. -/
theorem getPoolStats_unregistered_returns_null_witness :
    (ResourcePool.mk0 none none).getPoolStats "missing" = none :=
  getPoolStats_unregistered_returns_null (ResourcePool.mk0 none none)
    "missing" (by decide)

/-- One failing `execute` call in the `CLOSED` state that stays below the
threshold: the count and last-failure time advance, everything else is
untouched, and the operation was invoked. -/
theorem callStep_closed_stay (cb : CircuitBreaker) (c : ℕ) (t rand : ℚ)
    (hs : cb.state = CBState.Closed)
    (hlt : cb.failureCount + 1 < cb.failureThreshold) :
    CircuitBreaker.callStep (cb, c) ⟨t, true, rand⟩ =
      ({ cb with failureCount := cb.failureCount + 1,
                 lastFailureTime := some t }, c + 1) := by
  have hn : ¬ (cb.failureThreshold ≤ cb.failureCount + 1) := by omega
  simp [CircuitBreaker.callStep, CircuitBreaker.execute,
    CircuitBreaker.admitPhase, CircuitBreaker.onFailure, hs, hn]

/-- One failing `execute` call in the `CLOSED` state that reaches the
threshold: the breaker opens and schedules `nextAttempt` one backoff
delay into the future. -/
theorem callStep_closed_trip (cb : CircuitBreaker) (c : ℕ) (t rand : ℚ)
    (hs : cb.state = CBState.Closed)
    (hge : cb.failureThreshold ≤ cb.failureCount + 1) :
    CircuitBreaker.callStep (cb, c) ⟨t, true, rand⟩ =
      ({ cb with failureCount := cb.failureCount + 1,
                 lastFailureTime := some t,
                 state := CBState.Open,
                 nextAttempt := t +
                   (cb.timeout *
                       (2 : ℚ) ^ (min (((cb.failureCount : ℤ) + 1) -
                         (cb.failureThreshold : ℤ)) 6) +
                     rand * (1 / 10) *
                       (cb.timeout *
                         (2 : ℚ) ^ (min (((cb.failureCount : ℤ) + 1) -
                           (cb.failureThreshold : ℤ)) 6))) }, c + 1) := by
  simp [CircuitBreaker.callStep, CircuitBreaker.execute,
    CircuitBreaker.admitPhase, CircuitBreaker.onFailure,
    CircuitBreaker.getBackoffDelay, hs, hge]

/-- An `execute` call on an `OPEN` breaker before `nextAttempt` changes
nothing and does not invoke the operation. -/
theorem callStep_open_reject (cb : CircuitBreaker) (c : ℕ) (i : ExecInput)
    (hs : cb.state = CBState.Open) (hlt : i.now < cb.nextAttempt) :
    CircuitBreaker.callStep (cb, c) i = (cb, c) := by
  simp [CircuitBreaker.callStep, CircuitBreaker.execute,
    CircuitBreaker.admitPhase, hs, hlt]

/-- `k` consecutive failing calls that all stay strictly below the
threshold leave the breaker `CLOSED` with the count advanced by `k` and
the operation invoked `k` times. -/
theorem foldl_callStep_closed (t rand : ℚ) (k : ℕ) :
    ∀ (cb : CircuitBreaker) (c : ℕ), cb.state = CBState.Closed →
      cb.failureCount + k < cb.failureThreshold →
      List.foldl CircuitBreaker.callStep (cb, c)
          (List.replicate k ⟨t, true, rand⟩) =
        ({ cb with failureCount := cb.failureCount + k,
                   lastFailureTime :=
                     if k = 0 then cb.lastFailureTime else some t }, c + k) := by
  induction k with
  | zero => intro cb c hs _; simp
  | succ k ih =>
    intro cb c hs hlt
    rw [List.replicate_succ, List.foldl_cons,
      callStep_closed_stay cb c t rand hs (by omega)]
    rw [ih _ _ (by simpa using hs) (by simp; omega)]
    simp [CircuitBreaker.mk.injEq]
    omega

/-- C1.  A breaker with positive threshold `T` and positive base timeout,
starting `CLOSED` with `failureCount = 0`: after exactly `T` consecutive
failing `execute` calls (all at time `t`, jitter draw `rand ≥ 0`) the state
is `OPEN` and the operation was invoked exactly `T` times; the `(T+1)`-th
call at the same time is rejected with `CircuitOpenError` without invoking
the operation, so the invocation count over `T+1` calls is still `T`. -/
theorem breaker_opens_after_threshold_failures (T : ℕ) (bt t0 t rand : ℚ)
    (hT : 0 < T) (hbt : 0 < bt) (hr : 0 ≤ rand) :
    ((CircuitBreaker.mk0 T bt t0).runCalls
        (List.replicate T ⟨t, true, rand⟩)).1.state = CBState.Open ∧
    ((CircuitBreaker.mk0 T bt t0).runCalls
        (List.replicate T ⟨t, true, rand⟩)).2 = T ∧
    (((CircuitBreaker.mk0 T bt t0).runCalls
        (List.replicate T ⟨t, true, rand⟩)).1.execute t true rand).2 =
      ExecOutcome.rejected ∧
    ((CircuitBreaker.mk0 T bt t0).runCalls
        (List.replicate (T + 1) ⟨t, true, rand⟩)).2 = T := by
  obtain ⟨k, rfl⟩ : ∃ k, T = k + 1 := ⟨T - 1, by omega⟩
  set cb0 := CircuitBreaker.mk0 (k + 1) bt t0 with hcb0
  set E : ℚ :=
    bt * (2 : ℚ) ^ (min (((0 : ℕ) + k + 1 : ℤ) - ((k + 1 : ℕ) : ℤ)) 6) with hE
  have hEpos : 0 < E := by
    have : (0 : ℚ) <
        (2 : ℚ) ^ (min (((0 : ℕ) + k + 1 : ℤ) - ((k + 1 : ℕ) : ℤ)) 6) :=
      zpow_pos (by norm_num) _
    exact mul_pos hbt this
  have hDpos : 0 < E + rand * (1 / 10) * E := by
    have : 0 ≤ rand * (1 / 10) * E :=
      mul_nonneg (mul_nonneg hr (by norm_num)) hEpos.le
    linarith
  have hmid :
      List.foldl CircuitBreaker.callStep (cb0, 0)
          (List.replicate (k + 1) ⟨t, true, rand⟩) =
        ({ cb0 with failureCount := 0 + k + 1,
                    lastFailureTime := some t,
                    state := CBState.Open,
                    nextAttempt := t + (E + rand * (1 / 10) * E) },
          0 + k + 1) := by
    rw [List.replicate_succ', List.foldl_append]
    rw [foldl_callStep_closed t rand k cb0 0 rfl
      (by simp [hcb0, CircuitBreaker.mk0])]
    rw [List.foldl_cons, List.foldl_nil]
    rw [callStep_closed_trip _ _ t rand rfl (by simp [hcb0, CircuitBreaker.mk0])]
    simp [hcb0, CircuitBreaker.mk0, hE]
  refine ⟨?_, ?_, ?_, ?_⟩
  · show (CircuitBreaker.runCalls _ _).1.state = _
    rw [CircuitBreaker.runCalls, hmid]
  · show (CircuitBreaker.runCalls _ _).2 = _
    rw [CircuitBreaker.runCalls, hmid]
    simp
  · rw [CircuitBreaker.runCalls, hmid]
    simp only [CircuitBreaker.execute, CircuitBreaker.admitPhase]
    have h10 : (0 : ℚ) < E + rand * 10⁻¹ * E := by
      have h : (10 : ℚ)⁻¹ = 1 / 10 := by norm_num
      rw [h]; exact hDpos
    simp [h10]
  · rw [CircuitBreaker.runCalls, List.replicate_succ', List.foldl_append, hmid,
      List.foldl_cons, List.foldl_nil]
    rw [callStep_open_reject _ _ _ rfl
      (by show t < t + (E + rand * (1 / 10) * E); linarith)]
    simp

/-- Witness for `breaker_opens_after_threshold_failures` with `T = 2`,
`baseTimeout = 1000`, all calls at time 0, jitter draw 0. -/
theorem breaker_opens_after_threshold_failures_witness :
    ((CircuitBreaker.mk0 2 1000 0).runCalls
        (List.replicate 2 ⟨0, true, 0⟩)).1.state = CBState.Open ∧
    ((CircuitBreaker.mk0 2 1000 0).runCalls
        (List.replicate 2 ⟨0, true, 0⟩)).2 = 2 ∧
    (((CircuitBreaker.mk0 2 1000 0).runCalls
        (List.replicate 2 ⟨0, true, 0⟩)).1.execute 0 true 0).2 =
      ExecOutcome.rejected ∧
    ((CircuitBreaker.mk0 2 1000 0).runCalls
        (List.replicate (2 + 1) ⟨0, true, 0⟩)).2 = 2 :=
  breaker_opens_after_threshold_failures 2 1000 0 0 0 (by norm_num)
    (by norm_num) (by norm_num)

/-- When every attempt fails, the loop body starting at `attempt = a` with
`fuel` further iterations allowed performs `fuel + 1` attempts, sleeps
`initialDelay * multiplier^(a+i)` after the `i`-th of them (except the
last), and propagates the last error. -/
theorem retryFrom_all_fail {E A : Type} (op : ℕ → Except E A) (e : ℕ → E)
    (hop : ∀ i, op i = Except.error (e i)) (d m : ℚ) (fuel : ℕ) :
    ∀ a : ℕ,
      retryFrom op d m a fuel =
        ⟨Except.error (e (a + fuel)), fuel + 1,
          (List.range fuel).map (fun i => d * m ^ (a + i))⟩ := by
  induction fuel with
  | zero => intro a; simp [retryFrom, hop a]
  | succ fuel ih =>
    intro a
    rw [retryFrom, hop a]
    simp only [ih (a + 1)]
    simp only [RetryResult.mk.injEq]
    refine ⟨by rw [show a + 1 + fuel = a + (fuel + 1) from by omega],
      trivial, ?_⟩
    rw [List.range_succ_eq_map, List.map_cons, List.map_map]
    simp only [Nat.add_zero]
    congr 1
    apply List.map_congr_left
    intro i _
    simp only [Function.comp_apply]
    rw [show a + 1 + i = a + Nat.succ i from by omega]

/-- C5.  For an operation that fails on every attempt, `retryWithBackoff`
performs exactly `maxRetries + 1` attempts, sleeps
`initialDelay * multiplier^(i-1)` before the `i`-th retry (no delay before
attempt 0), and fails with the last underlying error; with
`maxRetries = 3`, `initialDelay = 100`, `multiplier = 2` the delays are
exactly `[100, 200, 400]` and at most 4 attempts occur. -/
theorem retry_exhausts_attempts_with_backoff {E A : Type}
    (op : ℕ → Except E A) (e : ℕ → E)
    (hop : ∀ i, op i = Except.error (e i)) (maxRetries : ℕ) (d m : ℚ) :
    retryWithBackoff op maxRetries d m =
        ⟨Except.error (e maxRetries), maxRetries + 1,
          (List.range maxRetries).map (fun i => d * m ^ i)⟩ ∧
    (retryWithBackoff op 3 100 2).delays = [100, 200, 400] ∧
    (retryWithBackoff op 3 100 2).attempts = 4 := by
  have h := retryFrom_all_fail op e hop d m maxRetries 0
  have h3 := retryFrom_all_fail op e hop 100 2 3 0
  refine ⟨?_, ?_, ?_⟩
  · rw [retryWithBackoff, h]
    simp
  · rw [retryWithBackoff, h3]
    norm_num [List.range_succ]
  · rw [retryWithBackoff, h3]

/-- Witness for `retry_exhausts_attempts_with_backoff` on the operation
that always fails with error 7, `maxRetries = 2`, `initialDelay = 5`,
`multiplier = 3`. -/
theorem retry_exhausts_attempts_with_backoff_witness :
    retryWithBackoff (fun _ => (Except.error 7 : Except ℕ ℕ)) 2 5 3 =
        ⟨Except.error 7, 2 + 1, (List.range 2).map (fun i => 5 * 3 ^ i)⟩ ∧
    (retryWithBackoff (fun _ => (Except.error 7 : Except ℕ ℕ)) 3 100 2).delays
        = [100, 200, 400] ∧
    (retryWithBackoff (fun _ => (Except.error 7 : Except ℕ ℕ)) 3 100 2).attempts
        = 4 :=
  retry_exhausts_attempts_with_backoff (fun _ => Except.error 7)
    (fun _ => 7) (fun _ => rfl) 2 5 3

/-- C8 counterexample.  `retryWithBackoff` takes no cancellation or
deadline signal at all: its behaviour is a function of the operation and
the retry options only.  On an always-failing operation with
`maxRetries = 3` it performs all 4 attempts and starts all three delays
`[100, 200, 400]` — so no observation of cancellation can ever stop a
delay or an attempt, and no `CancelledError` exists in its outcomes. -/
theorem retry_runs_full_schedule_cex :
    (retryWithBackoff (fun _ => (Except.error 0 : Except ℕ ℕ)) 3 100 2).attempts
        = 4 ∧
    (retryWithBackoff (fun _ => (Except.error 0 : Except ℕ ℕ)) 3 100 2).delays
        = [100, 200, 400] := by
  have h := retryFrom_all_fail (fun _ => (Except.error 0 : Except ℕ ℕ))
    (fun _ => 0) (fun _ => rfl) 100 2 3 0
  rw [retryWithBackoff, h]
  norm_num [List.range_succ]

/-- C8, amended.  The retry executor checks no cancellation signal and
never aborts early with a `CancelledError`: for every operation that fails
on each attempt it unconditionally performs all `maxRetries + 1` attempts,
starts all `maxRetries` delays, and fails with the last underlying
error. -/
theorem retry_has_no_cancellation {E A : Type} (op : ℕ → Except E A)
    (e : ℕ → E) (hop : ∀ i, op i = Except.error (e i)) (maxRetries : ℕ)
    (d m : ℚ) :
    (retryWithBackoff op maxRetries d m).attempts = maxRetries + 1 ∧
    (retryWithBackoff op maxRetries d m).delays.length = maxRetries ∧
    (retryWithBackoff op maxRetries d m).result =
      Except.error (e maxRetries) := by
  have h := retryFrom_all_fail op e hop d m maxRetries 0
  rw [retryWithBackoff, h]
  simp

/-- Witness for `retry_has_no_cancellation` on the operation that always
fails with error 1, `maxRetries = 2`, `initialDelay = 50`,
`multiplier = 2`. -/
theorem retry_has_no_cancellation_witness :
    (retryWithBackoff (fun _ => (Except.error 1 : Except ℕ ℕ)) 2 50 2).attempts
        = 2 + 1 ∧
    (retryWithBackoff (fun _ => (Except.error 1 : Except ℕ ℕ)) 2 50 2).delays.length
        = 2 ∧
    (retryWithBackoff (fun _ => (Except.error 1 : Except ℕ ℕ)) 2 50 2).result
        = Except.error 1 :=
  retry_has_no_cancellation (fun _ => Except.error 1) (fun _ => 1)
    (fun _ => rfl) 2 50 2

/-- C6.  For a breaker with `failureCount >= failureThreshold`, positive
base timeout, and a `Math.random()` draw `rand ∈ [0, 1)`:
`getBackoffDelay` returns exactly
`baseTimeout * 2^min(failureCount - failureThreshold, 6) + jitter`, the
jitter is in `[0, 0.1 * exponentialDelay)`, and the exponential part never
exceeds `64 * baseTimeout`. -/
theorem getBackoffDelay_formula_and_cap (cb : CircuitBreaker) (rand : ℚ)
    (hfc : cb.failureThreshold ≤ cb.failureCount) (hbt : 0 < cb.timeout)
    (hr0 : 0 ≤ rand) (hr1 : rand < 1) :
    cb.getBackoffDelay rand =
        cb.timeout *
            (2 : ℚ) ^ (min ((cb.failureCount : ℤ) - (cb.failureThreshold : ℤ)) 6) +
          rand * (1 / 10) *
            (cb.timeout *
              (2 : ℚ) ^ (min ((cb.failureCount : ℤ) - (cb.failureThreshold : ℤ)) 6)) ∧
    0 ≤ rand * (1 / 10) *
        (cb.timeout *
          (2 : ℚ) ^ (min ((cb.failureCount : ℤ) - (cb.failureThreshold : ℤ)) 6)) ∧
    rand * (1 / 10) *
        (cb.timeout *
          (2 : ℚ) ^ (min ((cb.failureCount : ℤ) - (cb.failureThreshold : ℤ)) 6)) <
      (1 / 10) *
        (cb.timeout *
          (2 : ℚ) ^ (min ((cb.failureCount : ℤ) - (cb.failureThreshold : ℤ)) 6)) ∧
    cb.timeout *
        (2 : ℚ) ^ (min ((cb.failureCount : ℤ) - (cb.failureThreshold : ℤ)) 6) ≤
      64 * cb.timeout := by
  have hEpos : (0 : ℚ) <
      cb.timeout *
        (2 : ℚ) ^ (min ((cb.failureCount : ℤ) - (cb.failureThreshold : ℤ)) 6) :=
    mul_pos hbt (zpow_pos (by norm_num) _)
  refine ⟨rfl, ?_, ?_, ?_⟩
  · exact mul_nonneg (mul_nonneg hr0 (by norm_num)) hEpos.le
  · have h := mul_lt_mul_of_pos_right hr1
      (by linarith :
        (0 : ℚ) < (1 / 10) *
          (cb.timeout *
            (2 : ℚ) ^ (min ((cb.failureCount : ℤ) - (cb.failureThreshold : ℤ)) 6)))
    calc rand * (1 / 10) *
          (cb.timeout *
            (2 : ℚ) ^ (min ((cb.failureCount : ℤ) - (cb.failureThreshold : ℤ)) 6))
        = rand * ((1 / 10) *
            (cb.timeout *
              (2 : ℚ) ^ (min ((cb.failureCount : ℤ) - (cb.failureThreshold : ℤ)) 6))) := by
          ring
      _ < 1 * ((1 / 10) *
            (cb.timeout *
              (2 : ℚ) ^ (min ((cb.failureCount : ℤ) - (cb.failureThreshold : ℤ)) 6))) := h
      _ = (1 / 10) *
            (cb.timeout *
              (2 : ℚ) ^ (min ((cb.failureCount : ℤ) - (cb.failureThreshold : ℤ)) 6)) := by
          ring
  · have hle : (2 : ℚ) ^ (min ((cb.failureCount : ℤ) - (cb.failureThreshold : ℤ)) 6) ≤
        (2 : ℚ) ^ (6 : ℤ) :=
      zpow_le_zpow_right₀ (by norm_num) (min_le_right _ _)
    have h64 : ((2 : ℚ) ^ (6 : ℤ)) = 64 := by norm_num
    calc cb.timeout *
          (2 : ℚ) ^ (min ((cb.failureCount : ℤ) - (cb.failureThreshold : ℤ)) 6)
        ≤ cb.timeout * (2 : ℚ) ^ (6 : ℤ) :=
          mul_le_mul_of_nonneg_left hle hbt.le
      _ = 64 * cb.timeout := by rw [h64]; ring

/-- Witness for `getBackoffDelay_formula_and_cap` at the fixture breaker
(`failureThreshold = 3`, `failureCount = 5`, `timeout = 1000`) and
`rand = 1/2`. -/
theorem getBackoffDelay_formula_and_cap_witness :
    cbBackoffFix.getBackoffDelay (1 / 2) =
        cbBackoffFix.timeout *
            (2 : ℚ) ^ (min ((cbBackoffFix.failureCount : ℤ) -
              (cbBackoffFix.failureThreshold : ℤ)) 6) +
          (1 / 2) * (1 / 10) *
            (cbBackoffFix.timeout *
              (2 : ℚ) ^ (min ((cbBackoffFix.failureCount : ℤ) -
                (cbBackoffFix.failureThreshold : ℤ)) 6)) ∧
    0 ≤ (1 / 2 : ℚ) * (1 / 10) *
        (cbBackoffFix.timeout *
          (2 : ℚ) ^ (min ((cbBackoffFix.failureCount : ℤ) -
            (cbBackoffFix.failureThreshold : ℤ)) 6)) ∧
    (1 / 2 : ℚ) * (1 / 10) *
        (cbBackoffFix.timeout *
          (2 : ℚ) ^ (min ((cbBackoffFix.failureCount : ℤ) -
            (cbBackoffFix.failureThreshold : ℤ)) 6)) <
      (1 / 10) *
        (cbBackoffFix.timeout *
          (2 : ℚ) ^ (min ((cbBackoffFix.failureCount : ℤ) -
            (cbBackoffFix.failureThreshold : ℤ)) 6)) ∧
    cbBackoffFix.timeout *
        (2 : ℚ) ^ (min ((cbBackoffFix.failureCount : ℤ) -
          (cbBackoffFix.failureThreshold : ℤ)) 6) ≤
      64 * cbBackoffFix.timeout :=
  getBackoffDelay_formula_and_cap cbBackoffFix (1 / 2)
    (by norm_num [cbBackoffFix, CircuitBreaker.mk0])
    (by norm_num [cbBackoffFix, CircuitBreaker.mk0])
    (by norm_num) (by norm_num)

/-- One complete `execute` call keeps the threshold positive and
re-establishes `state == Closed → failureCount < failureThreshold`:
`onSuccess` zeroes the count, a below-threshold `onFailure` stays strictly
below, an at-threshold `onFailure` leaves the `CLOSED` state, and the gate
check never produces `CLOSED`. -/
theorem callStep_preserves_inv (acc : CircuitBreaker × ℕ) (i : ExecInput)
    (hft : 0 < acc.1.failureThreshold) :
    0 < (CircuitBreaker.callStep acc i).1.failureThreshold ∧
    ((CircuitBreaker.callStep acc i).1.state = CBState.Closed →
      (CircuitBreaker.callStep acc i).1.failureCount <
        (CircuitBreaker.callStep acc i).1.failureThreshold) := by
  obtain ⟨cb, c⟩ := acc
  simp only [CircuitBreaker.callStep, CircuitBreaker.execute,
    CircuitBreaker.admitPhase, CircuitBreaker.onSuccess,
    CircuitBreaker.onFailure] at *
  split_ifs <;> simp_all

/-- The invariant of `callStep_preserves_inv`, folded over any sequence of
complete `execute` calls. -/
theorem foldl_callStep_preserves_inv (l : List ExecInput) :
    ∀ acc : CircuitBreaker × ℕ, 0 < acc.1.failureThreshold →
      (acc.1.state = CBState.Closed →
        acc.1.failureCount < acc.1.failureThreshold) →
      0 < (List.foldl CircuitBreaker.callStep acc l).1.failureThreshold ∧
      ((List.foldl CircuitBreaker.callStep acc l).1.state = CBState.Closed →
        (List.foldl CircuitBreaker.callStep acc l).1.failureCount <
          (List.foldl CircuitBreaker.callStep acc l).1.failureThreshold) := by
  induction l with
  | nil => intro acc hft hinv; exact ⟨hft, hinv⟩
  | cons i l ih =>
    intro acc hft hinv
    rw [List.foldl_cons]
    have h := callStep_preserves_inv acc i hft
    exact ih _ h.1 h.2

/-- C7.  For every breaker with positive `failureThreshold`, every state
reachable from the initial state by any sequence of `execute` calls
satisfies `state == Closed → failureCount < failureThreshold`: the
invariant holds initially (`failureCount = 0`) and is preserved by the
success and failure bookkeeping of `execute`. -/
theorem breaker_closed_implies_below_threshold (T : ℕ) (bt t0 : ℚ)
    (hT : 0 < T) (l : List ExecInput) :
    ((CircuitBreaker.mk0 T bt t0).runCalls l).1.state = CBState.Closed →
    ((CircuitBreaker.mk0 T bt t0).runCalls l).1.failureCount <
      ((CircuitBreaker.mk0 T bt t0).runCalls l).1.failureThreshold := by
  have h := foldl_callStep_preserves_inv l (CircuitBreaker.mk0 T bt t0, 0)
    (by simpa [CircuitBreaker.mk0] using hT)
    (by intro _; simpa [CircuitBreaker.mk0] using hT)
  exact h.2

/-- Witness for `breaker_closed_implies_below_threshold` with `T = 1`,
`timeout = 1000`, after a single successful call at time 0 (the run ends
`CLOSED`, so the invariant gives `failureCount < failureThreshold`). -/
theorem breaker_closed_implies_below_threshold_witness :
    ((CircuitBreaker.mk0 1 1000 0).runCalls [⟨0, false, 0⟩]).1.failureCount <
      ((CircuitBreaker.mk0 1 1000 0).runCalls [⟨0, false, 0⟩]).1.failureThreshold :=
  breaker_closed_implies_below_threshold 1 1000 0 (by norm_num)
    [⟨0, false, 0⟩] rfl
